import Mathlib

/-!
Verification of `latexexpr_efficalc.sympy` (file `src/latexexpr_efficalc/sympy/__init__.py`).

The module bridges two expression representations:
* the LaTeX-oriented expression tree of the base `latexexpr_efficalc` package
  (variables, n-ary / binary / unary operations), and
* the expression tree of the external CAS (`sympy`).

Shallow embedding choices:
* The base package (`Variable`, `Expression`, `Operation`, the operation tags and
  helper constructors such as `add`, `sub`, `mul`, `brackets`, `sin`, ...) is not part
  of the sources under verification; those parts are modelled from the spec and kept
  minimal (see the `Modelled from the spec:` doc comments).
* CAS trees are modelled as a free AST: each `sympy` constructor used by the code
  (`Add`, `Mul`, `Pow`, `log`, `sin`, ...) builds a node literally.  Automatic
  rewriting performed inside the external CAS is out of scope (the spec explicitly
  excludes reimplementing any CAS algorithm).
* Python numbers are modelled as rationals; `None` values as `Option`.
* Exceptions are modelled with `Except`; each distinct Python exception class that the
  code can raise gets its own error tag.
* The five/six CAS entry points (`sympy.simplify`, ...) are external: the wrappers are
  parameterised by a record of CAS functions.
-/

namespace LatexSympy

/-- Operation tags of the base package.  `OTHER` stands for any further tag the base
package might define that is in none of the three supported-operation lists. -/
inductive OpType where
  | ADD | MUL | MAX | MIN
  | SUB | DIV | DIV2 | POW | ROOT | LOG
  | NEG | POS | ABS | SQR | SQRT | SIN | COS | TAN
  | SINH | COSH | TANH | EXP | LN | LOG10
  | NONE | RBRACKETS | SBRACKETS | CBRACKETS | ABRACKETS
  | OTHER (tag : String)
deriving DecidableEq

/-- Modelled from the spec: a `latexexpr_efficalc.Variable` has a name and an optional
numeric value; `is_symbolic()` holds exactly when the value is absent. -/
structure Variable where
  name : String
  value : Option ℚ
deriving DecidableEq

/-- Modelled from the spec: the argument universe of the module functions.  An
`Operation` node carries its tag, its argument list and the rendering fields
`format` and `exponent`; an `Expression` wraps a named operation; `other`
stands for any object that is none of the three `latexexpr_efficalc` classes. -/
inductive Arg where
  | var (v : Variable)
  | expr (name : String) (operation : Arg)
  | op (type : OpType) (args : List Arg) (fmt : String) (exponent : Int)
  | other (descr : String)

/-- Free CAS (sympy) expression tree.  `lraw` wraps an object of the LaTeX side that
was handed to a sympy constructor without conversion (the `_LOG10` branch of the
source passes the unconverted argument `a` to `sympy.log`). -/
inductive SExpr where
  | symbol (name : String)
  | intLit (n : Int)
  | floatLit (q : ℚ)
  | ratLit (p : Int) (q : Int)
  | add (args : List SExpr)
  | mul (args : List SExpr)
  | pow (a b : SExpr)
  | abs (a : SExpr)
  | sin (a : SExpr)
  | cos (a : SExpr)
  | tan (a : SExpr)
  | sinh (a : SExpr)
  | cosh (a : SExpr)
  | tanh (a : SExpr)
  | exp (a : SExpr)
  | log (a : SExpr) (base : Option SExpr)
  | lraw (a : Arg)

/-- Python exception classes raised by the module, one tag each:
`TypeError`, `LaTeXExpressionError`, `UnboundLocalError` (the commented-out
`_MAX`/`_MIN` cases leave `sympyOp` unassigned), `KeyError` (`varMap[...]` lookup),
`IndexError` (`arg.args[i]` access), `AttributeError` (`_copyOperation` reading
operation fields off a non-`Operation`). -/
inductive Err where
  | typeError
  | latexError
  | nameError
  | keyError
  | indexError
  | attributeError
deriving DecidableEq

/-- The mutable dict `varMap` threaded through `_operation_to_sympy`, as an
association list; later insertions shadow earlier ones on lookup, like dict update. -/
def VarMap := List (String × Variable)

/-- Dict write `varMap[name] = arg`. -/
def vmInsert (vm : VarMap) (n : String) (v : Variable) : VarMap := (n, v) :: vm

/-- Dict read `varMap[name]`; `none` models a `KeyError`. -/
def vmFind (vm : VarMap) (n : String) : Option Variable :=
  match vm with
  | [] => none
  | (m, v) :: rest => if m = n then some v else vmFind rest n

/-- Python `"%g" % value`, modelled on rationals: integers print without a decimal
point; other values print as a finite decimal when the denominator divides a power of
ten (this covers every numeral the concrete inputs below use); remaining values fall
back to a fraction rendering. -/
def fmtG (q : ℚ) : String :=
  if q.den = 1 then toString q.num
  else
    match (List.range 21).find? (fun k => (10 ^ k : ℕ) % q.den = 0) with
    | some k =>
      let scale : ℕ := (10 ^ k) / q.den
      let scaled : ℕ := q.num.natAbs * scale
      let intPart : ℕ := scaled / 10 ^ k
      let fracDigits : String :=
        let s := Nat.toDigits 10 (scaled % 10 ^ k)
        let padded := List.replicate (k - s.length) '0' ++ s
        String.mk (padded.reverse.dropWhile (· = '0')).reverse
      (if q.num < 0 then "-" else "") ++ toString intPart ++ "." ++ fracDigits
    | none => toString q.num ++ "/" ++ toString q.den

/-- Modelled from the spec: rendering defaults the base package gives to operations it
builds; no claim below depends on their values. -/
def dfltFormat : String := "%.4g"

/-- Modelled from the spec: default exponent field of a freshly built operation. -/
def dfltExponent : Int := 0

/-- Modelled from the spec: the base package's `Operation` constructor with default
rendering fields, used by its helper constructors (`add`, `sub`, `mul`, ...). -/
def mkOp (t : OpType) (args : List Arg) : Arg := .op t args dfltFormat dfltExponent

/-- Modelled from the spec: `latexexpr_efficalc.add(*args)`. -/
def addL (args : List Arg) : Arg := mkOp .ADD args

/-- Modelled from the spec: `latexexpr_efficalc.sub(a, b)`. -/
def subL (a b : Arg) : Arg := mkOp .SUB [a, b]

/-- Modelled from the spec: `latexexpr_efficalc.mul(*args)`. -/
def mulL (args : List Arg) : Arg := mkOp .MUL args

/-- Modelled from the spec: the division `a / b` of two LaTeX-side objects. -/
def divL (a b : Arg) : Arg := mkOp .DIV [a, b]

/-- Modelled from the spec: the power `a ** b` of two LaTeX-side objects. -/
def powL (a b : Arg) : Arg := mkOp .POW [a, b]

/-- Modelled from the spec: unary minus `-a` on a LaTeX-side object. -/
def negL (a : Arg) : Arg := mkOp .NEG [a]

/-- Modelled from the spec: `latexexpr_efficalc.brackets(a)`. -/
def bracketsL (a : Arg) : Arg := mkOp .RBRACKETS [a]

/-- Modelled from the spec: `latexexpr_efficalc.absolute(a)`. -/
def absoluteL (a : Arg) : Arg := mkOp .ABS [a]

/-- Modelled from the spec: `latexexpr_efficalc.sin(a)`. -/
def sinL (a : Arg) : Arg := mkOp .SIN [a]

/-- Modelled from the spec: `latexexpr_efficalc.cos(a)`. -/
def cosL (a : Arg) : Arg := mkOp .COS [a]

/-- Modelled from the spec: `latexexpr_efficalc.tan(a)`. -/
def tanL (a : Arg) : Arg := mkOp .TAN [a]

/-- Modelled from the spec: `latexexpr_efficalc.sinh(a)`. -/
def sinhL (a : Arg) : Arg := mkOp .SINH [a]

/-- Modelled from the spec: `latexexpr_efficalc.cosh(a)`. -/
def coshL (a : Arg) : Arg := mkOp .COSH [a]

/-- Modelled from the spec: `latexexpr_efficalc.tanh(a)`. -/
def tanhL (a : Arg) : Arg := mkOp .TANH [a]

/-- Modelled from the spec: `latexexpr_efficalc.ln(a)`. -/
def lnL (a : Arg) : Arg := mkOp .LN [a]

mutual

/-- `_operation_to_sympy(arg, varMap, substituteFloats)` (source lines 70-156),
returning the converted CAS tree together with the updated `varMap`.
Deviations from the literal source text, each behaviour-preserving:
* the source dispatches on membership in `_supportedOperationsN` / `..2` / `..1`
  and then compares tags inside the branch; here the tags are matched directly
  (the three lists partition the tags; `OTHER` stands for a tag in none of them,
  reaching the final `LaTeXExpressionError`);
* `_MAX` / `_MIN` are members of the n-ary list whose `elif` cases are commented
  out, so `sympyOp(*args)` reads an unassigned local: modelled as `nameError`;
* the `_ROOT` case of the source converts the freshly built negation `-a[1]`;
  since converting a `_NEG` node yields `Mul(conv, -1)`, that conversion is inlined
  (theorem `root_case_matches_neg_composition` proves the two forms equal);
* `a[0]` / `a[1]` on a too-short argument list is an `IndexError`. -/
def operationToSympy (arg : Arg) (vm : VarMap) (sf : Bool) :
    Except Err (SExpr × VarMap) :=
  match arg with
  | .var v =>
    match v.value with
    | some q =>
      -- not is_symbolic() and name == "%g" % value: an anonymous numeric literal
      if v.name = fmtG q then
        if q.den = 1 then .ok (.intLit q.num, vm) else .ok (.floatLit q, vm)
      else if sf = false then .ok (.symbol v.name, vmInsert vm v.name v)
      else .ok (.floatLit q, vm)
    | none => .ok (.symbol v.name, vmInsert vm v.name v)
  | .expr _ operation => operationToSympy operation vm sf
  | .other _ => .error .typeError  -- raise TypeError("TODO " + ...)
  | .op t args _ _ =>
    match t with
    | .ADD => do
      let (ss, vm') ← operationToSympyList args vm sf
      .ok (.add ss, vm')
    | .MUL => do
      let (ss, vm') ← operationToSympyList args vm sf
      .ok (.mul ss, vm')
    | .MAX | .MIN => .error .nameError  -- commented-out cases leave sympyOp unbound
    | .SUB =>
      match args with
      | a0 :: a1 :: _ => do
        let (s0, vm1) ← operationToSympy a0 vm sf
        let (s1, vm2) ← operationToSympy a1 vm1 sf
        .ok (.add [s0, .mul [.intLit (-1), s1]], vm2)
      | _ => .error .indexError
    | .DIV | .DIV2 =>
      match args with
      | a0 :: a1 :: _ => do
        let (s0, vm1) ← operationToSympy a0 vm sf
        let (s1, vm2) ← operationToSympy a1 vm1 sf
        .ok (.mul [s0, .pow s1 (.intLit (-1))], vm2)
      | _ => .error .indexError
    | .POW =>
      match args with
      | a0 :: a1 :: _ => do
        let (s0, vm1) ← operationToSympy a0 vm sf
        let (s1, vm2) ← operationToSympy a1 vm1 sf
        .ok (.pow s0 s1, vm2)
      | _ => .error .indexError
    | .ROOT =>
      match args with
      | a0 :: a1 :: _ => do
        let (s0, vm1) ← operationToSympy a0 vm sf
        -- source: Pow(_o2s(a[0], ...), _o2s(-a[1], ...)); the conversion of the
        -- node -a[1] is Mul(conversion of a[1], -1), inlined here
        let (s1, vm2) ← operationToSympy a1 vm1 sf
        .ok (.pow s0 (.mul [s1, .intLit (-1)]), vm2)
      | _ => .error .indexError
    | .LOG =>
      match args with
      | a0 :: a1 :: _ => do
        let (s0, vm1) ← operationToSympy a0 vm sf
        let (s1, vm2) ← operationToSympy a1 vm1 sf
        .ok (.log s0 (some s1), vm2)
      | _ => .error .indexError
    | .NEG =>
      match args with
      | a :: _ => do
        let (s, vm') ← operationToSympy a vm sf
        .ok (.mul [s, .intLit (-1)], vm')
      | _ => .error .indexError
    | .ABS =>
      match args with
      | a :: _ => do
        let (s, vm') ← operationToSympy a vm sf
        .ok (.abs s, vm')
      | _ => .error .indexError
    | .SQR =>
      match args with
      | a :: _ => do
        let (s, vm') ← operationToSympy a vm sf
        .ok (.pow s (.intLit 2), vm')
      | _ => .error .indexError
    | .SQRT =>
      match args with
      | a :: _ => do
        let (s, vm') ← operationToSympy a vm sf
        .ok (.pow s (.intLit (-2)), vm')  -- source: Pow(_o2s(a, ...), -2)
      | _ => .error .indexError
    | .SIN =>
      match args with
      | a :: _ => do
        let (s, vm') ← operationToSympy a vm sf
        .ok (.sin s, vm')
      | _ => .error .indexError
    | .COS =>
      match args with
      | a :: _ => do
        let (s, vm') ← operationToSympy a vm sf
        .ok (.cos s, vm')
      | _ => .error .indexError
    | .TAN =>
      match args with
      | a :: _ => do
        let (s, vm') ← operationToSympy a vm sf
        .ok (.tan s, vm')
      | _ => .error .indexError
    | .SINH =>
      match args with
      | a :: _ => do
        let (s, vm') ← operationToSympy a vm sf
        .ok (.sinh s, vm')
      | _ => .error .indexError
    | .COSH =>
      match args with
      | a :: _ => do
        let (s, vm') ← operationToSympy a vm sf
        .ok (.sinh s, vm')  -- source line 135: sympyOp = sympy.sinh
      | _ => .error .indexError
    | .TANH =>
      match args with
      | a :: _ => do
        let (s, vm') ← operationToSympy a vm sf
        .ok (.sinh s, vm')  -- source line 137: sympyOp = sympy.sinh
      | _ => .error .indexError
    | .EXP =>
      match args with
      | a :: _ => do
        let (s, vm') ← operationToSympy a vm sf
        .ok (.exp s, vm')
      | _ => .error .indexError
    | .LN =>
      match args with
      | a :: _ => do
        let (s, vm') ← operationToSympy a vm sf
        .ok (.log s none, vm')
      | _ => .error .indexError
    | .LOG10 =>
      match args with
      -- source line 143: sympy.log, (a, 10) -- the argument a is NOT converted
      -- and varMap is left untouched
      | a :: _ => .ok (.log (.lraw a) (some (.intLit 10)), vm)
      | _ => .error .indexError
    | .NONE | .RBRACKETS | .SBRACKETS | .CBRACKETS | .ABRACKETS | .POS =>
      match args with
      | a :: _ => operationToSympy a vm sf
      | _ => .error .indexError
    | .OTHER _ => .error .latexError  -- raise LaTeXExpressionError("TODO")

/-- Left-to-right conversion of an argument list sharing the mutable `varMap`
(the list comprehension `[_o2s(a, varMap, sf) for a in arg.args]`). -/
def operationToSympyList (args : List Arg) (vm : VarMap) (sf : Bool) :
    Except Err (List SExpr × VarMap) :=
  match args with
  | [] => .ok ([], vm)
  | a :: rest => do
    let (s, vm') ← operationToSympy a vm sf
    let (ss, vm'') ← operationToSympyList rest vm' sf
    .ok (s :: ss, vm'')

end

/-- Whether a converted argument is an `Operation` of type `_ADD` or `_SUB`
(`a.type if isinstance(a, Operation) else a.operation.type if isinstance(a,
Expression) else None` compared against `(_ADD, _SUB)`, source lines 209-219 and
236-246).  Reading `.type` off an `Expression` whose operation is not an
`Operation` would raise; `_sympy2operation` results never contain `Expression`
nodes, so that path is dead and modelled as `false`. -/
def isAddOrSub (a : Arg) : Bool :=
  match a with
  | .op t _ _ _ => t = .ADD || t = .SUB
  | .expr _ (.op t _ _ _) => t = .ADD || t = .SUB
  | _ => false

/-- Bracket wrapping applied to `Add`/`Sub` factors inside a product and to an
`Add`/`Sub` base of a power. -/
def bracketIfAddSub (a : Arg) : Arg :=
  if isAddOrSub a then bracketsL a else a

/-- Whether a converted argument is a `Variable` whose name is the given string
(`isinstance(args[i], Variable) and args[i].name == "-1"`). -/
def isVarNamed (a : Arg) (s : String) : Bool :=
  match a with
  | .var v => v.name = s
  | _ => false

mutual

/-- `_sympy2operation(sympyExpr, varMap)` (source lines 163-275).
Branch notes, in source order:
* `is_Float or is_Integer`: only the literal constructors satisfy these predicates;
  the `Exp1` / `Pi` tests inside that branch are dead (in sympy neither constant is
  a `Float` or an `Integer`) and are omitted;
* `Symbol`: `varMap[name]`, a missing key being a `KeyError`;
* every remaining branch first converts all children
  (`args = [_s2o(a, varMap) for a in sympyExpr.args]`), here done per constructor;
* `Add`: a two-element list whose second element is a `_NEG` operation becomes
  `sub`; reading `args[1].args[0]` off a `_NEG` with no arguments would be an
  `IndexError`;
* `Mul`: the sign checks on a two-element list, then the `elif` of source lines
  198-208 (unreachable: its guard repeats `len(args) == 2`, which just failed),
  then bracket wrapping of `Add`/`Sub` factors;
* `Pow`: exponent name checks; the `"0.5"` case calls the string constant `_SQRT`,
  which raises a `TypeError`;
* the isinstance table `Abs`/`sin`/`cos`/`tan`/`sinh`/`cosh`/`tanh`/`log`; `log`
  keeps only the first child, dropping any base;
* `Rational`; everything else (in particular `exp` nodes and unconverted `lraw`
  objects) reaches the final `raise LaTeXExpressionError("TODO")`. -/
def sympy2operation (s : SExpr) (vm : VarMap) : Except Err Arg :=
  match s with
  | .intLit n => .ok (.var ⟨fmtG (n : ℚ), some (n : ℚ)⟩)
  | .floatLit q => .ok (.var ⟨fmtG q, some q⟩)
  | .symbol n =>
    match vmFind vm n with
    | some v => .ok (.var v)
    | none => .error .keyError
  | .add ss => do
    let args ← sympy2operationList ss vm
    match args with
    | [a0, .op .NEG (inner :: _) _ _] => .ok (subL a0 inner)
    | [_, .op .NEG [] _ _] => .error .indexError
    | _ => .ok (addL args)
  | .mul ss => do
    let args ← sympy2operationList ss vm
    match args with
    | [a0, a1] =>
      if isVarNamed a0 "-1" then .ok (negL a1)
      else if isVarNamed a1 "-1" then .ok (negL a0)
      else .ok (mulL [bracketIfAddSub a0, bracketIfAddSub a1])
    | _ => .ok (mulL (args.map bracketIfAddSub))
  | .pow a b => do
    let a0 ← sympy2operation a vm
    let a1 ← sympy2operation b vm
    if isVarNamed a1 "-1" then .ok (divL (.var ⟨"1", some 1⟩) a0)
    else if isVarNamed a1 "2" then .ok (powL a0 (.var ⟨"2", some 2⟩))
    else if isVarNamed a1 "0.5" then .error .typeError  -- _SQRT(args[1]): str call
    else .ok (powL (bracketIfAddSub a0) a1)
  | .abs a => do
    let a0 ← sympy2operation a vm
    .ok (absoluteL a0)
  | .sin a => do
    let a0 ← sympy2operation a vm
    .ok (sinL a0)
  | .cos a => do
    let a0 ← sympy2operation a vm
    .ok (cosL a0)
  | .tan a => do
    let a0 ← sympy2operation a vm
    .ok (tanL a0)
  | .sinh a => do
    let a0 ← sympy2operation a vm
    .ok (sinhL a0)
  | .cosh a => do
    let a0 ← sympy2operation a vm
    .ok (coshL a0)
  | .tanh a => do
    let a0 ← sympy2operation a vm
    .ok (tanhL a0)
  | .log a _ => do
    let a0 ← sympy2operation a vm
    .ok (lnL a0)  -- the table maps sympy.log to latexexpr_efficalc.ln
  | .ratLit p q =>
    if 0 < p then
      .ok (divL (.var ⟨toString p, some (p : ℚ)⟩) (.var ⟨toString q, some (q : ℚ)⟩))
    else
      .ok (negL (divL (.var ⟨toString (-p), some ((-p : Int) : ℚ)⟩)
        (.var ⟨toString q, some (q : ℚ)⟩)))
  | .exp _ => .error .latexError  -- no table entry: falls to the final raise
  | .lraw _ => .error .latexError  -- no branch matches an unconverted object

/-- Child-by-child back conversion (`[_s2o(a, varMap) for a in sympyExpr.args]`). -/
def sympy2operationList (ss : List SExpr) (vm : VarMap) : Except Err (List Arg) :=
  match ss with
  | [] => .ok []
  | s :: rest => do
    let a ← sympy2operation s vm
    let as2 ← sympy2operationList rest vm
    .ok (a :: as2)

end

/-- The `_ROOT` case of `operationToSympy` inlines the conversion of the freshly
built negation `-a[1]`; this records that the inlined form agrees with the literal
composition of the source (`Pow(_o2s(a[0], ...), _o2s(-a[1], ...))`). -/
theorem root_case_matches_neg_composition (a0 a1 : Arg) (rest : List Arg)
    (f : String) (ex : Int) (vm : VarMap) (sf : Bool) :
    operationToSympy (.op .ROOT (a0 :: a1 :: rest) f ex) vm sf =
      (do
        let (s0, vm1) ← operationToSympy a0 vm sf
        let (s1, vm2) ← operationToSympy (negL a1) vm1 sf
        .ok (.pow s0 s1, vm2)) := by
  simp only [operationToSympy, negL, mkOp]
  cases operationToSympy a0 vm sf with
  | error e => rfl
  | ok p =>
    cases p with
    | mk s0 vm1 =>
      simp only [Except.bind, bind]
      cases operationToSympy a1 vm1 sf with
      | error e => rfl
      | ok p2 => rfl

/-- The `syms` parameter of `collect`: a `Variable`, a list (the documented
`[Variable]` form), or anything else. -/
inductive SymsArg where
  | symsVar (v : Variable)
  | symsList (l : List Variable)
  | symsOther (descr : String)

/-- The external CAS entry points the module calls, as an abstract record:
`sympy.simplify`, `sympy.expand`, `sympy.factor`, `sympy.collect`, `sympy.cancel`,
`sympy.apart` (keyword arguments are not modelled). -/
structure Cas where
  simplify : SExpr → SExpr
  expand : SExpr → SExpr
  factor : SExpr → SExpr
  collect : SExpr → SExpr → SExpr
  cancel : SExpr → SExpr
  apart : SExpr → SExpr

/-- `simplify(arg, substituteFloats, **kw)` (source lines 281-327).  The
`Expression` branch makes a shallow copy and calls the `simplify` method on it;
that method sets the copy's `operation` attribute to the module-level result on
`self.operation`, so the branch is the module-level call on the wrapped operation
followed by rebuilding the expression. -/
def simplify (cas : Cas) (sf : Bool) : Arg → Except Err Arg
  | .var v => .ok (.var v)
  | .expr n operation =>
    match simplify cas sf operation with
    | .ok r => .ok (.expr n r)
    | .error e => .error e
  | .op t args f ex => do
    let (s, vm) ← operationToSympy (.op t args f ex) [] sf
    sympy2operation (cas.simplify s) vm
  | .other _ => .error .typeError

/-- `expand(arg, substituteFloats, **kw)` (source lines 343-375). -/
def expand (cas : Cas) (sf : Bool) : Arg → Except Err Arg
  | .var v => .ok (.var v)
  | .expr n operation =>
    match expand cas sf operation with
    | .ok r => .ok (.expr n r)
    | .error e => .error e
  | .op t args f ex => do
    let (s, vm) ← operationToSympy (.op t args f ex) [] sf
    sympy2operation (cas.expand s) vm
  | .other _ => .error .typeError

/-- `factor(arg, substituteFloats, **kw)` (source lines 391-422). -/
def factor (cas : Cas) (sf : Bool) : Arg → Except Err Arg
  | .var v => .ok (.var v)
  | .expr n operation =>
    match factor cas sf operation with
    | .ok r => .ok (.expr n r)
    | .error e => .error e
  | .op t args f ex => do
    let (s, vm) ← operationToSympy (.op t args f ex) [] sf
    sympy2operation (cas.factor s) vm
  | .other _ => .error .typeError

/-- `collect(arg, syms, substituteFloats, **kw)` (source lines 438-477).  In the
`Operation` branch the conversion runs first; then the syms check: when `syms` is
not a `Variable` the check evaluates `all(isinstance(<generator>))`, and
`isinstance` applied to a single argument raises a `TypeError` — so every
non-`Variable` `syms`, including a list of `Variable`s, fails before the CAS
`collect` entry point is reached. -/
def collect (cas : Cas) (sf : Bool) (syms : SymsArg) : Arg → Except Err Arg
  | .var v => .ok (.var v)
  | .expr n operation =>
    match collect cas sf syms operation with
    | .ok r => .ok (.expr n r)
    | .error e => .error e
  | .op t args f ex => do
    let (s, vm) ← operationToSympy (.op t args f ex) [] sf
    match syms with
    | .symsVar v => sympy2operation (cas.collect s (.symbol v.name)) vm
    | _ => .error .typeError
  | .other _ => .error .typeError

/-- `cancel(arg, substituteFloats, **kw)` (source lines 493-527). -/
def cancel (cas : Cas) (sf : Bool) : Arg → Except Err Arg
  | .var v => .ok (.var v)
  | .expr n operation =>
    match cancel cas sf operation with
    | .ok r => .ok (.expr n r)
    | .error e => .error e
  | .op t args f ex => do
    let (s, vm) ← operationToSympy (.op t args f ex) [] sf
    sympy2operation (cas.cancel s) vm
  | .other _ => .error .typeError

/-- `apart(arg, substituteFloats, **kw)` (source lines 543-569). -/
def apart (cas : Cas) (sf : Bool) : Arg → Except Err Arg
  | .var v => .ok (.var v)
  | .expr n operation =>
    match apart cas sf operation with
    | .ok r => .ok (.expr n r)
    | .error e => .error e
  | .op t args f ex => do
    let (s, vm) ← operationToSympy (.op t args f ex) [] sf
    sympy2operation (cas.apart s) vm
  | .other _ => .error .typeError

/-- `_setOperation(expr, operation)` (source line 588): the method machinery on an
`Expression` with the given name assigns the processed operation to the receiver;
an exception in producing the operation propagates with no assignment. -/
def setOperation (n : String) (r : Except Err Arg) : Except Err Arg :=
  match r with
  | .ok operation => .ok (.expr n operation)
  | .error e => .error e

/-- `_copyOperation(o1, o2)` (source lines 592-596): the receiver's `type`, `args`,
`format` and `exponent` fields are overwritten with those of the processed result;
when the result is not an `Operation` the attribute reads raise `AttributeError`. -/
def copyOperation (r : Except Err Arg) : Except Err Arg :=
  match r with
  | .ok (.op t2 args2 f2 ex2) => .ok (.op t2 args2 f2 ex2)
  | .ok _ => .error .attributeError
  | .error e => .error e

/-- `Expression.simplify` (source lines 330-334), as a map from the receiver's
fields to the post-call receiver. -/
def exprSimplifyMethod (cas : Cas) (sf : Bool) (n : String) (operation : Arg) :
    Except Err Arg :=
  setOperation n (simplify cas sf operation)

/-- `Operation.simplify` (source lines 336-340). -/
def opSimplifyMethod (cas : Cas) (sf : Bool) (t : OpType) (args : List Arg)
    (f : String) (ex : Int) : Except Err Arg :=
  copyOperation (simplify cas sf (.op t args f ex))

/-- `Expression.expand` (source lines 378-382). -/
def exprExpandMethod (cas : Cas) (sf : Bool) (n : String) (operation : Arg) :
    Except Err Arg :=
  setOperation n (expand cas sf operation)

/-- `Operation.expand` (source lines 384-388). -/
def opExpandMethod (cas : Cas) (sf : Bool) (t : OpType) (args : List Arg)
    (f : String) (ex : Int) : Except Err Arg :=
  copyOperation (expand cas sf (.op t args f ex))

/-- `Expression.factor` (source lines 425-429). -/
def exprFactorMethod (cas : Cas) (sf : Bool) (n : String) (operation : Arg) :
    Except Err Arg :=
  setOperation n (factor cas sf operation)

/-- `Operation.factor` (source lines 431-435). -/
def opFactorMethod (cas : Cas) (sf : Bool) (t : OpType) (args : List Arg)
    (f : String) (ex : Int) : Except Err Arg :=
  copyOperation (factor cas sf (.op t args f ex))

/-- `Expression.collect` (source lines 480-484). -/
def exprCollectMethod (cas : Cas) (sf : Bool) (syms : SymsArg) (n : String)
    (operation : Arg) : Except Err Arg :=
  setOperation n (collect cas sf syms operation)

/-- `Operation.collect` (source lines 486-490). -/
def opCollectMethod (cas : Cas) (sf : Bool) (syms : SymsArg) (t : OpType)
    (args : List Arg) (f : String) (ex : Int) : Except Err Arg :=
  copyOperation (collect cas sf syms (.op t args f ex))

/-- `Expression.cancel` (source lines 530-534). -/
def exprCancelMethod (cas : Cas) (sf : Bool) (n : String) (operation : Arg) :
    Except Err Arg :=
  setOperation n (cancel cas sf operation)

/-- `Operation.cancel` (source lines 536-540). -/
def opCancelMethod (cas : Cas) (sf : Bool) (t : OpType) (args : List Arg)
    (f : String) (ex : Int) : Except Err Arg :=
  copyOperation (cancel cas sf (.op t args f ex))

/-- `Expression.apart` (source lines 572-576). -/
def exprApartMethod (cas : Cas) (sf : Bool) (n : String) (operation : Arg) :
    Except Err Arg :=
  setOperation n (apart cas sf operation)

/-- `Operation.apart` (source lines 578-582). -/
def opApartMethod (cas : Cas) (sf : Bool) (t : OpType) (args : List Arg)
    (f : String) (ex : Int) : Except Err Arg :=
  copyOperation (apart cas sf (.op t args f ex))

mutual

/-- Modelled from the spec: the mathematical value of a LaTeX-side expression tree
under an assignment of real values to variable names.  A variable holding a value
denotes that value; a symbolic variable denotes its assigned value.  Tags outside
the spec's operation table, and arity mismatches, default to `0`. -/
noncomputable def evalArg (a : Arg) (ρ : String → ℝ) : ℝ :=
  match a with
  | .var v =>
    match v.value with
    | some q => (q : ℝ)
    | none => ρ v.name
  | .expr _ operation => evalArg operation ρ
  | .other _ => 0
  | .op t args _ _ =>
    match t with
    | .ADD => (evalArgList args ρ).sum
    | .MUL => (evalArgList args ρ).prod
    | .SUB =>
      match args with
      | [a0, a1] => evalArg a0 ρ - evalArg a1 ρ
      | _ => 0
    | .DIV | .DIV2 =>
      match args with
      | [a0, a1] => evalArg a0 ρ / evalArg a1 ρ
      | _ => 0
    | .POW =>
      match args with
      | [a0, a1] => Real.rpow (evalArg a0 ρ) (evalArg a1 ρ)
      | _ => 0
    | .ROOT =>
      -- the spec: the n-th root of a is a raised to the power 1/n
      match args with
      | [a0, a1] => Real.rpow (evalArg a0 ρ) (1 / evalArg a1 ρ)
      | _ => 0
    | .LOG =>
      match args with
      | [a0, a1] => Real.log (evalArg a0 ρ) / Real.log (evalArg a1 ρ)
      | _ => 0
    | .NEG =>
      match args with
      | [a0] => -(evalArg a0 ρ)
      | _ => 0
    | .POS | .NONE | .RBRACKETS | .SBRACKETS | .CBRACKETS | .ABRACKETS =>
      match args with
      | [a0] => evalArg a0 ρ
      | _ => 0
    | .ABS =>
      match args with
      | [a0] => |evalArg a0 ρ|
      | _ => 0
    | .SQR =>
      match args with
      | [a0] => evalArg a0 ρ ^ 2
      | _ => 0
    | .SQRT =>
      match args with
      | [a0] => Real.sqrt (evalArg a0 ρ)
      | _ => 0
    | .SIN =>
      match args with
      | [a0] => Real.sin (evalArg a0 ρ)
      | _ => 0
    | .COS =>
      match args with
      | [a0] => Real.cos (evalArg a0 ρ)
      | _ => 0
    | .TAN =>
      match args with
      | [a0] => Real.tan (evalArg a0 ρ)
      | _ => 0
    | .SINH =>
      match args with
      | [a0] => Real.sinh (evalArg a0 ρ)
      | _ => 0
    | .COSH =>
      match args with
      | [a0] => Real.cosh (evalArg a0 ρ)
      | _ => 0
    | .TANH =>
      match args with
      | [a0] => Real.tanh (evalArg a0 ρ)
      | _ => 0
    | .EXP =>
      match args with
      | [a0] => Real.exp (evalArg a0 ρ)
      | _ => 0
    | .LN =>
      match args with
      | [a0] => Real.log (evalArg a0 ρ)
      | _ => 0
    | .LOG10 =>
      match args with
      | [a0] => Real.log (evalArg a0 ρ) / Real.log 10
      | _ => 0
    | .MAX | .MIN | .OTHER _ => 0

/-- Values of a list of LaTeX-side trees. -/
noncomputable def evalArgList (args : List Arg) (ρ : String → ℝ) : List ℝ :=
  match args with
  | [] => []
  | a :: rest => evalArg a ρ :: evalArgList rest ρ

end

mutual

/-- The mathematical value of a CAS tree under an assignment of real values to
symbol names: each free constructor denotes the function the corresponding sympy
node stands for (`Pow` is real exponentiation `rpow`, a two-argument `log` is the
base-`b` logarithm, `lraw` denotes the value of the wrapped LaTeX-side object). -/
noncomputable def evalSympy (s : SExpr) (ρ : String → ℝ) : ℝ :=
  match s with
  | .symbol n => ρ n
  | .intLit n => (n : ℝ)
  | .floatLit q => (q : ℝ)
  | .ratLit p q => (p : ℝ) / (q : ℝ)
  | .add ss => (evalSympyList ss ρ).sum
  | .mul ss => (evalSympyList ss ρ).prod
  | .pow a b => Real.rpow (evalSympy a ρ) (evalSympy b ρ)
  | .abs a => |evalSympy a ρ|
  | .sin a => Real.sin (evalSympy a ρ)
  | .cos a => Real.cos (evalSympy a ρ)
  | .tan a => Real.tan (evalSympy a ρ)
  | .sinh a => Real.sinh (evalSympy a ρ)
  | .cosh a => Real.cosh (evalSympy a ρ)
  | .tanh a => Real.tanh (evalSympy a ρ)
  | .exp a => Real.exp (evalSympy a ρ)
  | .log a none => Real.log (evalSympy a ρ)
  | .log a (some b) => Real.log (evalSympy a ρ) / Real.log (evalSympy b ρ)
  | .lraw a => evalArg a ρ

/-- Values of a list of CAS trees. -/
noncomputable def evalSympyList (ss : List SExpr) (ρ : String → ℝ) : List ℝ :=
  match ss with
  | [] => []
  | s :: rest => evalSympy s ρ :: evalSympyList rest ρ

end

/-- The n-ary tags of the claims' operation table (`add`, `multiply`). -/
def claimNAry : List OpType := [.ADD, .MUL]

/-- The binary tags of the claims' operation table
(`subtract, divide, power, root, log`). -/
def claimBinary : List OpType := [.SUB, .DIV, .DIV2, .POW, .ROOT, .LOG]

/-- The unary tags of the claims' operation table (`negate, absolute value, square,
square root, sin, cos, tan, sinh, cosh, tanh, exp, ln, log10; brackets and
positive`). -/
def claimUnary : List OpType :=
  [.NEG, .ABS, .SQR, .SQRT, .SIN, .COS, .TAN, .SINH, .COSH, .TANH,
   .EXP, .LN, .LOG10, .POS, .RBRACKETS, .SBRACKETS, .CBRACKETS, .ABRACKETS]

mutual

/-- A tree is built only from the supported operation tags of the claims, with the
arity each tag requires, and contains no foreign (`other`) objects. -/
def WFb : Arg → Bool
  | .var _ => true
  | .expr _ operation => WFb operation
  | .other _ => false
  | .op t args _ _ =>
    (if t ∈ claimNAry then true
     else if t ∈ claimBinary then args.length = 2
     else if t ∈ claimUnary then args.length = 1
     else false)
    && WFbList args

/-- All trees of a list are well formed. -/
def WFbList : List Arg → Bool
  | [] => true
  | a :: rest => WFb a && WFbList rest

end

/-- Back-conversion of the result of an external CAS entry point `g` applied to the
forward conversion of an operation: the composition
`_sympy2operation(g(_operation_to_sympy(arg, substituteFloats)), varMap)`
that the claims compare the wrappers against. -/
def casPipeline (g : SExpr → SExpr) (sf : Bool) (t : OpType) (args : List Arg)
    (f : String) (ex : Int) : Except Err Arg := do
  let (s, vm) ← operationToSympy (.op t args f ex) [] sf
  sympy2operation (g s) vm

/-- The round trip of the two conversion functions on a tree, starting from an
empty `varMap`. -/
def roundTrip (a : Arg) (sf : Bool) : Except Err Arg := do
  let (s, vm) ← operationToSympy a [] sf
  sympy2operation s vm

/-- A CAS whose entry points all behave as the identity. -/
def idCas : Cas := ⟨id, id, id, fun s _ => s, id, id⟩

/-- A CAS whose six entry points return six pairwise different constants; used to
observe which entry point a wrapper invokes. -/
def tagCas : Cas :=
  ⟨fun _ => .intLit 1, fun _ => .intLit 2, fun _ => .intLit 3,
   fun _ _ => .intLit 4, fun _ => .intLit 5, fun _ => .intLit 6⟩

/-- A symbolic variable named x. -/
def xVar : Variable := ⟨"x", none⟩

/-- A minimal operation that converts successfully: brackets around x. -/
def probeArg : Arg := mkOp .RBRACKETS [.var xVar]

/-- The name of the variable a successful wrapper call returned, else the empty
string; under `tagCas` this identifies the CAS entry point that was invoked. -/
def entryName : Except Err Arg → String
  | .ok (.var v) => v.name
  | _ => ""

/-- The observations of the six wrappers on `probeArg` under `tagCas`. -/
def casProbeResults : List String :=
  [entryName (simplify tagCas false probeArg),
   entryName (expand tagCas false probeArg),
   entryName (factor tagCas false probeArg),
   entryName (collect tagCas false (.symsVar xVar) probeArg),
   entryName (cancel tagCas false probeArg),
   entryName (apart tagCas false probeArg)]

/-- Whether a call returned normally. -/
def resultOk : Except Err Arg → Bool
  | .ok _ => true
  | .error _ => false

/-- The hyperbolic cosine of x, as a LaTeX-side operation. -/
def coshX : Arg := coshL (.var xVar)

/-- e to the x, as a LaTeX-side operation. -/
def expX : Arg := mkOp .EXP [.var xVar]

/-- Whether a conversion returned normally. -/
def convOk {α : Type} : Except Err α → Bool
  | .ok _ => true
  | .error _ => false

theorem convOk_iff {α : Type} (r : Except Err α) :
    convOk r = true ↔ ∃ p, r = .ok p := by
  cases r <;> simp [convOk]

/-- Claim C1: each of the six wrapper functions, applied to an `Operation`, returns
exactly the back-conversion of its CAS entry point applied to the forward
conversion of the argument, for every value of `substituteFloats`; the wrappers
perform no rewriting of their own (for `collect`, with the `syms` form that passes
its validation). -/
theorem wrappers_delegate_to_cas (cas : Cas) (sf : Bool) (t : OpType)
    (args : List Arg) (f : String) (ex : Int) :
    simplify cas sf (.op t args f ex) = casPipeline cas.simplify sf t args f ex ∧
    expand cas sf (.op t args f ex) = casPipeline cas.expand sf t args f ex ∧
    factor cas sf (.op t args f ex) = casPipeline cas.factor sf t args f ex ∧
    (∀ v : Variable, collect cas sf (.symsVar v) (.op t args f ex) =
      casPipeline (fun s => cas.collect s (.symbol v.name)) sf t args f ex) ∧
    cancel cas sf (.op t args f ex) = casPipeline cas.cancel sf t args f ex ∧
    apart cas sf (.op t args f ex) = casPipeline cas.apart sf t args f ex := by
  refine ⟨rfl, rfl, rfl, fun v => ?_, rfl, rfl⟩
  simp only [collect, casPipeline]

/-- Claim C7: the six wrappers are deterministic and free of hidden state: in the
embedding they are pure functions, so the result of a call is fixed by its
arguments, and a call made after any sequence of earlier calls returns the same
value as the same call made alone. -/
theorem wrappers_deterministic_and_stateless (cas : Cas) (sf : Bool)
    (pre : List Arg) (a : Arg) (syms : SymsArg) :
    ((pre ++ [a]).map (simplify cas sf)).getLast? = some (simplify cas sf a) ∧
    ((pre ++ [a]).map (expand cas sf)).getLast? = some (expand cas sf a) ∧
    ((pre ++ [a]).map (factor cas sf)).getLast? = some (factor cas sf a) ∧
    ((pre ++ [a]).map (collect cas sf syms)).getLast? = some (collect cas sf syms a) ∧
    ((pre ++ [a]).map (cancel cas sf)).getLast? = some (cancel cas sf a) ∧
    ((pre ++ [a]).map (apart cas sf)).getLast? = some (apart cas sf a) := by
  refine ⟨?_, ?_, ?_, ?_, ?_, ?_⟩ <;>
    simp [List.getLast?_concat]

/-- Claim C8: for each of the six wrappers, a `Variable` argument is returned as it
is, with no CAS entry point consulted (the result does not depend on the CAS
record), and an argument that is none of `Variable`, `Expression`, `Operation`
raises a `TypeError`. -/
theorem wrappers_variable_identity_and_type_error (cas cas2 : Cas) (sf : Bool)
    (v : Variable) (d : String) (syms : SymsArg) :
    (simplify cas sf (.var v) = .ok (.var v) ∧
      simplify cas sf (.var v) = simplify cas2 sf (.var v) ∧
      simplify cas sf (.other d) = .error .typeError) ∧
    (expand cas sf (.var v) = .ok (.var v) ∧
      expand cas sf (.var v) = expand cas2 sf (.var v) ∧
      expand cas sf (.other d) = .error .typeError) ∧
    (factor cas sf (.var v) = .ok (.var v) ∧
      factor cas sf (.var v) = factor cas2 sf (.var v) ∧
      factor cas sf (.other d) = .error .typeError) ∧
    (collect cas sf syms (.var v) = .ok (.var v) ∧
      collect cas sf syms (.var v) = collect cas2 sf syms (.var v) ∧
      collect cas sf syms (.other d) = .error .typeError) ∧
    (cancel cas sf (.var v) = .ok (.var v) ∧
      cancel cas sf (.var v) = cancel cas2 sf (.var v) ∧
      cancel cas sf (.other d) = .error .typeError) ∧
    (apart cas sf (.var v) = .ok (.var v) ∧
      apart cas sf (.var v) = apart cas2 sf (.var v) ∧
      apart cas sf (.other d) = .error .typeError) :=
  ⟨⟨rfl, rfl, rfl⟩, ⟨rfl, rfl, rfl⟩, ⟨rfl, rfl, rfl⟩,
   ⟨rfl, rfl, rfl⟩, ⟨rfl, rfl, rfl⟩, ⟨rfl, rfl, rfl⟩⟩

/-- Claim C9: `collect` on an `Operation` with any non-`Variable` `syms` — a list of
`Variable`s or anything else — raises before the CAS `collect` entry point is
consulted: the call fails, and its outcome does not depend on the CAS record at
all. -/
theorem collect_rejects_non_variable_syms (cas cas2 : Cas) (sf : Bool)
    (t : OpType) (args : List Arg) (f : String) (ex : Int)
    (l : List Variable) (d : String) :
    resultOk (collect cas sf (.symsList l) (.op t args f ex)) = false ∧
    collect cas sf (.symsList l) (.op t args f ex) =
      collect cas2 sf (.symsList l) (.op t args f ex) ∧
    resultOk (collect cas sf (.symsOther d) (.op t args f ex)) = false ∧
    collect cas sf (.symsOther d) (.op t args f ex) =
      collect cas2 sf (.symsOther d) (.op t args f ex) := by
  refine ⟨?_, ?_, ?_, ?_⟩
  · simp only [collect, resultOk]
    cases operationToSympy (.op t args f ex) [] sf with
    | error e => rfl
    | ok p => cases p with | mk s vm => rfl
  · simp only [collect]
  · simp only [collect, resultOk]
    cases operationToSympy (.op t args f ex) [] sf with
    | error e => rfl
    | ok p => cases p with | mk s vm => rfl
  · simp only [collect]

/-- Claim C10: each module-level wrapper applied to an `Expression` returns a
rebuilt expression with the same name, whose operation is the module-level result
on the original expression's operation; the argument itself is left untouched
(values in the embedding are immutable, matching `copy.copy` plus attribute
rebinding in the source). -/
theorem module_functions_copy_expressions (cas : Cas) (sf : Bool) (n : String)
    (operation : Arg) (syms : SymsArg) :
    (∀ r, simplify cas sf (.expr n operation) = .ok r →
      ∃ r2, r = .expr n r2 ∧ simplify cas sf operation = .ok r2) ∧
    (∀ r, expand cas sf (.expr n operation) = .ok r →
      ∃ r2, r = .expr n r2 ∧ expand cas sf operation = .ok r2) ∧
    (∀ r, factor cas sf (.expr n operation) = .ok r →
      ∃ r2, r = .expr n r2 ∧ factor cas sf operation = .ok r2) ∧
    (∀ r, collect cas sf syms (.expr n operation) = .ok r →
      ∃ r2, r = .expr n r2 ∧ collect cas sf syms operation = .ok r2) ∧
    (∀ r, cancel cas sf (.expr n operation) = .ok r →
      ∃ r2, r = .expr n r2 ∧ cancel cas sf operation = .ok r2) ∧
    (∀ r, apart cas sf (.expr n operation) = .ok r →
      ∃ r2, r = .expr n r2 ∧ apart cas sf operation = .ok r2) := by
  refine ⟨?_, ?_, ?_, ?_, ?_, ?_⟩ <;>
  · intro r h
    simp only [simplify, expand, factor, collect, cancel, apart] at h
    split at h
    · cases h
      exact ⟨_, rfl, by assumption⟩
    · cases h

/-- Claim C10 witness. -/
theorem module_functions_copy_expressions_witness :
    ∃ r2, Arg.expr "e" (.var ⟨"y", none⟩) = .expr "e" r2 ∧
      simplify idCas false (.var ⟨"y", none⟩) = .ok r2 :=
  (module_functions_copy_expressions idCas false "e" (.var ⟨"y", none⟩)
    (.symsVar xVar)).1 (.expr "e" (.var ⟨"y", none⟩)) rfl

/-- Claim C4: the method forms write results back onto the receiver: on an
`Expression`, the receiver's `operation` field becomes the processed result; on an
`Operation`, the receiver's `type`, `args`, `format` and `exponent` fields become
those of the processed result — so the receiver afterwards denotes the result of
the operation. -/
theorem methods_write_back_processed_result (cas : Cas) (sf : Bool) :
    (∀ n operation r, simplify cas sf operation = .ok r →
      exprSimplifyMethod cas sf n operation = .ok (.expr n r)) ∧
    (∀ t args f ex t2 args2 f2 ex2,
      simplify cas sf (.op t args f ex) = .ok (.op t2 args2 f2 ex2) →
      opSimplifyMethod cas sf t args f ex = .ok (.op t2 args2 f2 ex2)) ∧
    (∀ n operation r, expand cas sf operation = .ok r →
      exprExpandMethod cas sf n operation = .ok (.expr n r)) ∧
    (∀ t args f ex t2 args2 f2 ex2,
      expand cas sf (.op t args f ex) = .ok (.op t2 args2 f2 ex2) →
      opExpandMethod cas sf t args f ex = .ok (.op t2 args2 f2 ex2)) ∧
    (∀ n operation r, factor cas sf operation = .ok r →
      exprFactorMethod cas sf n operation = .ok (.expr n r)) ∧
    (∀ t args f ex t2 args2 f2 ex2,
      factor cas sf (.op t args f ex) = .ok (.op t2 args2 f2 ex2) →
      opFactorMethod cas sf t args f ex = .ok (.op t2 args2 f2 ex2)) ∧
    (∀ syms n operation r, collect cas sf syms operation = .ok r →
      exprCollectMethod cas sf syms n operation = .ok (.expr n r)) ∧
    (∀ syms t args f ex t2 args2 f2 ex2,
      collect cas sf syms (.op t args f ex) = .ok (.op t2 args2 f2 ex2) →
      opCollectMethod cas sf syms t args f ex = .ok (.op t2 args2 f2 ex2)) ∧
    (∀ n operation r, cancel cas sf operation = .ok r →
      exprCancelMethod cas sf n operation = .ok (.expr n r)) ∧
    (∀ t args f ex t2 args2 f2 ex2,
      cancel cas sf (.op t args f ex) = .ok (.op t2 args2 f2 ex2) →
      opCancelMethod cas sf t args f ex = .ok (.op t2 args2 f2 ex2)) ∧
    (∀ n operation r, apart cas sf operation = .ok r →
      exprApartMethod cas sf n operation = .ok (.expr n r)) ∧
    (∀ t args f ex t2 args2 f2 ex2,
      apart cas sf (.op t args f ex) = .ok (.op t2 args2 f2 ex2) →
      opApartMethod cas sf t args f ex = .ok (.op t2 args2 f2 ex2)) := by
  refine ⟨?_, ?_, ?_, ?_, ?_, ?_, ?_, ?_, ?_, ?_, ?_, ?_⟩ <;>
    intros <;>
    simp_all [exprSimplifyMethod, opSimplifyMethod, exprExpandMethod,
      opExpandMethod, exprFactorMethod, opFactorMethod, exprCollectMethod,
      opCollectMethod, exprCancelMethod, opCancelMethod, exprApartMethod,
      opApartMethod, setOperation, copyOperation]

/-- Claim C4 witness. -/
theorem methods_write_back_processed_result_witness :
    exprSimplifyMethod idCas false "e" (.var xVar) = .ok (.expr "e" (.var xVar)) ∧
    opSimplifyMethod idCas false .ADD [.var ⟨"1", some 1⟩] dfltFormat dfltExponent =
      .ok (.op .ADD [.var ⟨"1", some 1⟩] dfltFormat dfltExponent) ∧
    exprExpandMethod idCas false "e" (.var xVar) = .ok (.expr "e" (.var xVar)) ∧
    opExpandMethod idCas false .ADD [.var ⟨"1", some 1⟩] dfltFormat dfltExponent =
      .ok (.op .ADD [.var ⟨"1", some 1⟩] dfltFormat dfltExponent) ∧
    exprFactorMethod idCas false "e" (.var xVar) = .ok (.expr "e" (.var xVar)) ∧
    opFactorMethod idCas false .ADD [.var ⟨"1", some 1⟩] dfltFormat dfltExponent =
      .ok (.op .ADD [.var ⟨"1", some 1⟩] dfltFormat dfltExponent) ∧
    exprCollectMethod idCas false (.symsVar xVar) "e" (.var xVar) =
      .ok (.expr "e" (.var xVar)) ∧
    opCollectMethod idCas false (.symsVar xVar) .ADD [.var ⟨"1", some 1⟩]
      dfltFormat dfltExponent =
      .ok (.op .ADD [.var ⟨"1", some 1⟩] dfltFormat dfltExponent) ∧
    exprCancelMethod idCas false "e" (.var xVar) = .ok (.expr "e" (.var xVar)) ∧
    opCancelMethod idCas false .ADD [.var ⟨"1", some 1⟩] dfltFormat dfltExponent =
      .ok (.op .ADD [.var ⟨"1", some 1⟩] dfltFormat dfltExponent) ∧
    exprApartMethod idCas false "e" (.var xVar) = .ok (.expr "e" (.var xVar)) ∧
    opApartMethod idCas false .ADD [.var ⟨"1", some 1⟩] dfltFormat dfltExponent =
      .ok (.op .ADD [.var ⟨"1", some 1⟩] dfltFormat dfltExponent) := by
  have h := methods_write_back_processed_result idCas false
  exact ⟨h.1 "e" (.var xVar) (.var xVar) rfl,
    h.2.1 .ADD [.var ⟨"1", some 1⟩] dfltFormat dfltExponent
      .ADD [.var ⟨"1", some 1⟩] dfltFormat dfltExponent rfl,
    h.2.2.1 "e" (.var xVar) (.var xVar) rfl,
    h.2.2.2.1 .ADD [.var ⟨"1", some 1⟩] dfltFormat dfltExponent
      .ADD [.var ⟨"1", some 1⟩] dfltFormat dfltExponent rfl,
    h.2.2.2.2.1 "e" (.var xVar) (.var xVar) rfl,
    h.2.2.2.2.2.1 .ADD [.var ⟨"1", some 1⟩] dfltFormat dfltExponent
      .ADD [.var ⟨"1", some 1⟩] dfltFormat dfltExponent rfl,
    h.2.2.2.2.2.2.1 (.symsVar xVar) "e" (.var xVar) (.var xVar) rfl,
    h.2.2.2.2.2.2.2.1 (.symsVar xVar) .ADD [.var ⟨"1", some 1⟩] dfltFormat
      dfltExponent .ADD [.var ⟨"1", some 1⟩] dfltFormat dfltExponent rfl,
    h.2.2.2.2.2.2.2.2.1 "e" (.var xVar) (.var xVar) rfl,
    h.2.2.2.2.2.2.2.2.2.1 .ADD [.var ⟨"1", some 1⟩] dfltFormat dfltExponent
      .ADD [.var ⟨"1", some 1⟩] dfltFormat dfltExponent rfl,
    h.2.2.2.2.2.2.2.2.2.2.1 "e" (.var xVar) (.var xVar) rfl,
    h.2.2.2.2.2.2.2.2.2.2.2 .ADD [.var ⟨"1", some 1⟩] dfltFormat dfltExponent
      .ADD [.var ⟨"1", some 1⟩] dfltFormat dfltExponent rfl⟩

/-- Claim C5 counterexample: under a CAS whose six entry points return six pairwise
different constants, the six wrappers produce six pairwise different observations —
impossible if the wrappers invoked only five distinct entry points — so the set of
external CAS entry points called by the dispatch layer does not have exactly five
elements. -/
theorem five_cas_entry_points_refuted :
    casProbeResults = ["1", "2", "3", "4", "5", "6"] ∧
    casProbeResults.dedup.length ≠ 5 := by
  constructor
  · rfl
  · have h : casProbeResults = ["1", "2", "3", "4", "5", "6"] := rfl
    rw [h]
    decide

/-- Claim C5 amended: the dispatch layer invokes exactly six distinct external CAS
entry points — one per wrapper, pairwise distinct. -/
theorem six_distinct_cas_entry_points :
    casProbeResults.length = 6 ∧ casProbeResults.dedup.length = 6 := by
  have h : casProbeResults = ["1", "2", "3", "4", "5", "6"] := rfl
  rw [h]
  exact ⟨rfl, by decide⟩

theorem sinh_one_ne_cosh_one : Real.sinh 1 ≠ Real.cosh 1 := by
  intro h
  have hc := Real.cosh_sub_sinh 1
  rw [h, sub_self] at hc
  exact (Real.exp_pos (-1)).ne' hc.symm

/-- Claim C2 (refuting theorem): the forward conversion is not value-preserving on
the spec's operation table.  It maps the hyperbolic cosine of x to the CAS
hyperbolic sine of x (source line 135), the hyperbolic tangent of x likewise to
the CAS hyperbolic sine (line 137), and the square root of x to x raised to the
power minus two (line 125), and the cube root of x to x raised to the power
three times minus one (line 112); on the hyperbolic-cosine input the converted
tree evaluates differently from the original under the assignment x := 1. -/
theorem forward_conversion_not_value_preserving :
    operationToSympy coshX [] false = .ok (.sinh (.symbol "x"), [("x", xVar)]) ∧
    operationToSympy (tanhL (.var xVar)) [] false =
      .ok (.sinh (.symbol "x"), [("x", xVar)]) ∧
    operationToSympy (mkOp .SQRT [.var xVar]) [] false =
      .ok (.pow (.symbol "x") (.intLit (-2)), [("x", xVar)]) ∧
    operationToSympy (mkOp .ROOT [.var xVar, .var ⟨"3", some 3⟩]) [] false =
      .ok (.pow (.symbol "x") (.mul [.intLit 3, .intLit (-1)]), [("x", xVar)]) ∧
    evalSympy (.sinh (.symbol "x")) (fun _ => 1) ≠ evalArg coshX (fun _ => 1) := by
  refine ⟨rfl, rfl, rfl, rfl, ?_⟩
  have h1 : evalArg coshX (fun _ => 1) = Real.cosh 1 := by
    simp [coshX, coshL, mkOp, evalArg, evalArgList, xVar]
  have h2 : evalSympy (.sinh (.symbol "x")) (fun _ => 1) = Real.sinh 1 := by
    simp [evalSympy]
  rw [h1, h2]
  exact sinh_one_ne_cosh_one

/-- Claim C3 (refuting theorem): the round trip of the two conversions is neither
total nor semantics-preserving on the spec's operation table: on the exponential
of x the back conversion reaches its final `LaTeXExpressionError` raise, and on
the hyperbolic cosine of x the round trip returns the hyperbolic sine of x, which
evaluates differently from the input under the assignment x := 1. -/
theorem round_trip_fails :
    roundTrip expX false = .error .latexError ∧
    roundTrip coshX false = .ok (sinhL (.var xVar)) ∧
    evalArg (sinhL (.var xVar)) (fun _ => 1) ≠ evalArg coshX (fun _ => 1) := by
  refine ⟨rfl, rfl, ?_⟩
  have h1 : evalArg coshX (fun _ => 1) = Real.cosh 1 := by
    simp [coshX, coshL, mkOp, evalArg, evalArgList, xVar]
  have h2 : evalArg (sinhL (.var xVar)) (fun _ => 1) = Real.sinh 1 := by
    simp [sinhL, mkOp, evalArg, evalArgList, xVar]
  rw [h1, h2]
  exact sinh_one_ne_cosh_one


theorem bindOkErr {α β : Type} (x : α) (f : α → Except Err β) :
    (Except.ok x : Except Err α) >>= f = f x := rfl

theorem list_len_two {α : Type} (l : List α) (h : l.length = 2) :
    ∃ x y, l = [x, y] := by
  match l, h with
  | [x, y], _ => exact ⟨x, y, rfl⟩

theorem list_len_one {α : Type} (l : List α) (h : l.length = 1) :
    ∃ x, l = [x] := by
  match l, h with
  | [x], _ => exact ⟨x, rfl⟩

set_option maxHeartbeats 2000000 in
mutual

theorem operationToSympy_ok (arg : Arg) (vm : VarMap) (sf : Bool)
    (h : WFb arg = true) : convOk (operationToSympy arg vm sf) = true := by
  cases arg with
  | var v =>
    cases hv : v.value with
    | none => simp [operationToSympy, hv, convOk]
    | some q =>
      by_cases h1 : v.name = fmtG q
      · by_cases h2 : q.den = 1 <;> simp [operationToSympy, hv, h1, h2, convOk]
      · by_cases h2 : sf = false <;> simp [operationToSympy, hv, h1, h2, convOk]
  | expr n operation =>
    have h2 : WFb operation = true := by simpa [WFb] using h
    simpa only [operationToSympy] using operationToSympy_ok operation vm sf h2
  | other d => simp [WFb] at h
  | op t args f ex =>
    simp only [WFb, Bool.and_eq_true] at h
    obtain ⟨har, hlist⟩ := h
    cases t with
    | ADD =>
      obtain ⟨⟨ss, vmA⟩, hss⟩ :=
        (convOk_iff _).mp (operationToSympyList_ok args vm sf hlist)
      simp only [operationToSympy, hss, bindOkErr, convOk]
    | MUL =>
      obtain ⟨⟨ss, vmA⟩, hss⟩ :=
        (convOk_iff _).mp (operationToSympyList_ok args vm sf hlist)
      simp only [operationToSympy, hss, bindOkErr, convOk]
    | MAX => simp [claimNAry, claimBinary, claimUnary] at har
    | MIN => simp [claimNAry, claimBinary, claimUnary] at har
    | NONE => simp [claimNAry, claimBinary, claimUnary] at har
    | OTHER s => simp [claimNAry, claimBinary, claimUnary] at har
    | SUB =>
      have hlen : args.length = 2 := by
        simpa [claimNAry, claimBinary, claimUnary] using har
      obtain ⟨a0, a1, rfl⟩ := list_len_two args hlen
      simp only [WFbList, Bool.and_eq_true] at hlist
      obtain ⟨ha0, ha1, -⟩ := hlist
      obtain ⟨⟨s0, vm1⟩, h0⟩ :=
        (convOk_iff _).mp (operationToSympy_ok a0 vm sf ha0)
      obtain ⟨⟨s1, vm2⟩, h1⟩ :=
        (convOk_iff _).mp (operationToSympy_ok a1 vm1 sf ha1)
      simp only [operationToSympy, h0, h1, bindOkErr, convOk]
    | DIV =>
      have hlen : args.length = 2 := by
        simpa [claimNAry, claimBinary, claimUnary] using har
      obtain ⟨a0, a1, rfl⟩ := list_len_two args hlen
      simp only [WFbList, Bool.and_eq_true] at hlist
      obtain ⟨ha0, ha1, -⟩ := hlist
      obtain ⟨⟨s0, vm1⟩, h0⟩ :=
        (convOk_iff _).mp (operationToSympy_ok a0 vm sf ha0)
      obtain ⟨⟨s1, vm2⟩, h1⟩ :=
        (convOk_iff _).mp (operationToSympy_ok a1 vm1 sf ha1)
      simp only [operationToSympy, h0, h1, bindOkErr, convOk]
    | DIV2 =>
      have hlen : args.length = 2 := by
        simpa [claimNAry, claimBinary, claimUnary] using har
      obtain ⟨a0, a1, rfl⟩ := list_len_two args hlen
      simp only [WFbList, Bool.and_eq_true] at hlist
      obtain ⟨ha0, ha1, -⟩ := hlist
      obtain ⟨⟨s0, vm1⟩, h0⟩ :=
        (convOk_iff _).mp (operationToSympy_ok a0 vm sf ha0)
      obtain ⟨⟨s1, vm2⟩, h1⟩ :=
        (convOk_iff _).mp (operationToSympy_ok a1 vm1 sf ha1)
      simp only [operationToSympy, h0, h1, bindOkErr, convOk]
    | POW =>
      have hlen : args.length = 2 := by
        simpa [claimNAry, claimBinary, claimUnary] using har
      obtain ⟨a0, a1, rfl⟩ := list_len_two args hlen
      simp only [WFbList, Bool.and_eq_true] at hlist
      obtain ⟨ha0, ha1, -⟩ := hlist
      obtain ⟨⟨s0, vm1⟩, h0⟩ :=
        (convOk_iff _).mp (operationToSympy_ok a0 vm sf ha0)
      obtain ⟨⟨s1, vm2⟩, h1⟩ :=
        (convOk_iff _).mp (operationToSympy_ok a1 vm1 sf ha1)
      simp only [operationToSympy, h0, h1, bindOkErr, convOk]
    | ROOT =>
      have hlen : args.length = 2 := by
        simpa [claimNAry, claimBinary, claimUnary] using har
      obtain ⟨a0, a1, rfl⟩ := list_len_two args hlen
      simp only [WFbList, Bool.and_eq_true] at hlist
      obtain ⟨ha0, ha1, -⟩ := hlist
      obtain ⟨⟨s0, vm1⟩, h0⟩ :=
        (convOk_iff _).mp (operationToSympy_ok a0 vm sf ha0)
      obtain ⟨⟨s1, vm2⟩, h1⟩ :=
        (convOk_iff _).mp (operationToSympy_ok a1 vm1 sf ha1)
      simp only [operationToSympy, h0, h1, bindOkErr, convOk]
    | LOG =>
      have hlen : args.length = 2 := by
        simpa [claimNAry, claimBinary, claimUnary] using har
      obtain ⟨a0, a1, rfl⟩ := list_len_two args hlen
      simp only [WFbList, Bool.and_eq_true] at hlist
      obtain ⟨ha0, ha1, -⟩ := hlist
      obtain ⟨⟨s0, vm1⟩, h0⟩ :=
        (convOk_iff _).mp (operationToSympy_ok a0 vm sf ha0)
      obtain ⟨⟨s1, vm2⟩, h1⟩ :=
        (convOk_iff _).mp (operationToSympy_ok a1 vm1 sf ha1)
      simp only [operationToSympy, h0, h1, bindOkErr, convOk]
    | NEG =>
      have hlen : args.length = 1 := by
        simpa [claimNAry, claimBinary, claimUnary] using har
      obtain ⟨a0, rfl⟩ := list_len_one args hlen
      simp only [WFbList, Bool.and_eq_true] at hlist
      obtain ⟨ha0, -⟩ := hlist
      obtain ⟨⟨s0, vm1⟩, h0⟩ :=
        (convOk_iff _).mp (operationToSympy_ok a0 vm sf ha0)
      simp only [operationToSympy, h0, bindOkErr, convOk]
    | POS =>
      have hlen : args.length = 1 := by
        simpa [claimNAry, claimBinary, claimUnary] using har
      obtain ⟨a0, rfl⟩ := list_len_one args hlen
      simp only [WFbList, Bool.and_eq_true] at hlist
      obtain ⟨ha0, -⟩ := hlist
      obtain ⟨⟨s0, vm1⟩, h0⟩ :=
        (convOk_iff _).mp (operationToSympy_ok a0 vm sf ha0)
      simp only [operationToSympy, h0, bindOkErr, convOk]
    | ABS =>
      have hlen : args.length = 1 := by
        simpa [claimNAry, claimBinary, claimUnary] using har
      obtain ⟨a0, rfl⟩ := list_len_one args hlen
      simp only [WFbList, Bool.and_eq_true] at hlist
      obtain ⟨ha0, -⟩ := hlist
      obtain ⟨⟨s0, vm1⟩, h0⟩ :=
        (convOk_iff _).mp (operationToSympy_ok a0 vm sf ha0)
      simp only [operationToSympy, h0, bindOkErr, convOk]
    | SQR =>
      have hlen : args.length = 1 := by
        simpa [claimNAry, claimBinary, claimUnary] using har
      obtain ⟨a0, rfl⟩ := list_len_one args hlen
      simp only [WFbList, Bool.and_eq_true] at hlist
      obtain ⟨ha0, -⟩ := hlist
      obtain ⟨⟨s0, vm1⟩, h0⟩ :=
        (convOk_iff _).mp (operationToSympy_ok a0 vm sf ha0)
      simp only [operationToSympy, h0, bindOkErr, convOk]
    | SQRT =>
      have hlen : args.length = 1 := by
        simpa [claimNAry, claimBinary, claimUnary] using har
      obtain ⟨a0, rfl⟩ := list_len_one args hlen
      simp only [WFbList, Bool.and_eq_true] at hlist
      obtain ⟨ha0, -⟩ := hlist
      obtain ⟨⟨s0, vm1⟩, h0⟩ :=
        (convOk_iff _).mp (operationToSympy_ok a0 vm sf ha0)
      simp only [operationToSympy, h0, bindOkErr, convOk]
    | SIN =>
      have hlen : args.length = 1 := by
        simpa [claimNAry, claimBinary, claimUnary] using har
      obtain ⟨a0, rfl⟩ := list_len_one args hlen
      simp only [WFbList, Bool.and_eq_true] at hlist
      obtain ⟨ha0, -⟩ := hlist
      obtain ⟨⟨s0, vm1⟩, h0⟩ :=
        (convOk_iff _).mp (operationToSympy_ok a0 vm sf ha0)
      simp only [operationToSympy, h0, bindOkErr, convOk]
    | COS =>
      have hlen : args.length = 1 := by
        simpa [claimNAry, claimBinary, claimUnary] using har
      obtain ⟨a0, rfl⟩ := list_len_one args hlen
      simp only [WFbList, Bool.and_eq_true] at hlist
      obtain ⟨ha0, -⟩ := hlist
      obtain ⟨⟨s0, vm1⟩, h0⟩ :=
        (convOk_iff _).mp (operationToSympy_ok a0 vm sf ha0)
      simp only [operationToSympy, h0, bindOkErr, convOk]
    | TAN =>
      have hlen : args.length = 1 := by
        simpa [claimNAry, claimBinary, claimUnary] using har
      obtain ⟨a0, rfl⟩ := list_len_one args hlen
      simp only [WFbList, Bool.and_eq_true] at hlist
      obtain ⟨ha0, -⟩ := hlist
      obtain ⟨⟨s0, vm1⟩, h0⟩ :=
        (convOk_iff _).mp (operationToSympy_ok a0 vm sf ha0)
      simp only [operationToSympy, h0, bindOkErr, convOk]
    | SINH =>
      have hlen : args.length = 1 := by
        simpa [claimNAry, claimBinary, claimUnary] using har
      obtain ⟨a0, rfl⟩ := list_len_one args hlen
      simp only [WFbList, Bool.and_eq_true] at hlist
      obtain ⟨ha0, -⟩ := hlist
      obtain ⟨⟨s0, vm1⟩, h0⟩ :=
        (convOk_iff _).mp (operationToSympy_ok a0 vm sf ha0)
      simp only [operationToSympy, h0, bindOkErr, convOk]
    | COSH =>
      have hlen : args.length = 1 := by
        simpa [claimNAry, claimBinary, claimUnary] using har
      obtain ⟨a0, rfl⟩ := list_len_one args hlen
      simp only [WFbList, Bool.and_eq_true] at hlist
      obtain ⟨ha0, -⟩ := hlist
      obtain ⟨⟨s0, vm1⟩, h0⟩ :=
        (convOk_iff _).mp (operationToSympy_ok a0 vm sf ha0)
      simp only [operationToSympy, h0, bindOkErr, convOk]
    | TANH =>
      have hlen : args.length = 1 := by
        simpa [claimNAry, claimBinary, claimUnary] using har
      obtain ⟨a0, rfl⟩ := list_len_one args hlen
      simp only [WFbList, Bool.and_eq_true] at hlist
      obtain ⟨ha0, -⟩ := hlist
      obtain ⟨⟨s0, vm1⟩, h0⟩ :=
        (convOk_iff _).mp (operationToSympy_ok a0 vm sf ha0)
      simp only [operationToSympy, h0, bindOkErr, convOk]
    | EXP =>
      have hlen : args.length = 1 := by
        simpa [claimNAry, claimBinary, claimUnary] using har
      obtain ⟨a0, rfl⟩ := list_len_one args hlen
      simp only [WFbList, Bool.and_eq_true] at hlist
      obtain ⟨ha0, -⟩ := hlist
      obtain ⟨⟨s0, vm1⟩, h0⟩ :=
        (convOk_iff _).mp (operationToSympy_ok a0 vm sf ha0)
      simp only [operationToSympy, h0, bindOkErr, convOk]
    | LN =>
      have hlen : args.length = 1 := by
        simpa [claimNAry, claimBinary, claimUnary] using har
      obtain ⟨a0, rfl⟩ := list_len_one args hlen
      simp only [WFbList, Bool.and_eq_true] at hlist
      obtain ⟨ha0, -⟩ := hlist
      obtain ⟨⟨s0, vm1⟩, h0⟩ :=
        (convOk_iff _).mp (operationToSympy_ok a0 vm sf ha0)
      simp only [operationToSympy, h0, bindOkErr, convOk]
    | LOG10 =>
      have hlen : args.length = 1 := by
        simpa [claimNAry, claimBinary, claimUnary] using har
      obtain ⟨a0, rfl⟩ := list_len_one args hlen
      simp only [WFbList, Bool.and_eq_true] at hlist
      obtain ⟨ha0, -⟩ := hlist
      obtain ⟨⟨s0, vm1⟩, h0⟩ :=
        (convOk_iff _).mp (operationToSympy_ok a0 vm sf ha0)
      simp only [operationToSympy, h0, bindOkErr, convOk]
    | RBRACKETS =>
      have hlen : args.length = 1 := by
        simpa [claimNAry, claimBinary, claimUnary] using har
      obtain ⟨a0, rfl⟩ := list_len_one args hlen
      simp only [WFbList, Bool.and_eq_true] at hlist
      obtain ⟨ha0, -⟩ := hlist
      obtain ⟨⟨s0, vm1⟩, h0⟩ :=
        (convOk_iff _).mp (operationToSympy_ok a0 vm sf ha0)
      simp only [operationToSympy, h0, bindOkErr, convOk]
    | SBRACKETS =>
      have hlen : args.length = 1 := by
        simpa [claimNAry, claimBinary, claimUnary] using har
      obtain ⟨a0, rfl⟩ := list_len_one args hlen
      simp only [WFbList, Bool.and_eq_true] at hlist
      obtain ⟨ha0, -⟩ := hlist
      obtain ⟨⟨s0, vm1⟩, h0⟩ :=
        (convOk_iff _).mp (operationToSympy_ok a0 vm sf ha0)
      simp only [operationToSympy, h0, bindOkErr, convOk]
    | CBRACKETS =>
      have hlen : args.length = 1 := by
        simpa [claimNAry, claimBinary, claimUnary] using har
      obtain ⟨a0, rfl⟩ := list_len_one args hlen
      simp only [WFbList, Bool.and_eq_true] at hlist
      obtain ⟨ha0, -⟩ := hlist
      obtain ⟨⟨s0, vm1⟩, h0⟩ :=
        (convOk_iff _).mp (operationToSympy_ok a0 vm sf ha0)
      simp only [operationToSympy, h0, bindOkErr, convOk]
    | ABRACKETS =>
      have hlen : args.length = 1 := by
        simpa [claimNAry, claimBinary, claimUnary] using har
      obtain ⟨a0, rfl⟩ := list_len_one args hlen
      simp only [WFbList, Bool.and_eq_true] at hlist
      obtain ⟨ha0, -⟩ := hlist
      obtain ⟨⟨s0, vm1⟩, h0⟩ :=
        (convOk_iff _).mp (operationToSympy_ok a0 vm sf ha0)
      simp only [operationToSympy, h0, bindOkErr, convOk]

theorem operationToSympyList_ok (args : List Arg) (vm : VarMap) (sf : Bool)
    (h : WFbList args = true) : convOk (operationToSympyList args vm sf) = true := by
  cases args with
  | nil => simp [operationToSympyList, convOk]
  | cons a rest =>
    simp only [WFbList, Bool.and_eq_true] at h
    obtain ⟨ha, hrest⟩ := h
    obtain ⟨⟨s, vmA⟩, hs⟩ := (convOk_iff _).mp (operationToSympy_ok a vm sf ha)
    obtain ⟨⟨ss, vmB⟩, hss⟩ :=
      (convOk_iff _).mp (operationToSympyList_ok rest vmA sf hrest)
    simp only [operationToSympyList, hs, hss, bindOkErr, convOk]

end


/-- Claim C6: the forward conversion is total on supported input: on every tree
built only from the supported operation tags (with their arities) it returns a
result; in particular its `TypeError` branch and its `LaTeXExpressionError` branch
are never reached. -/
theorem forward_conversion_total_on_supported (arg : Arg) (vm : VarMap)
    (sf : Bool) (h : WFb arg = true) :
    convOk (operationToSympy arg vm sf) = true ∧
    operationToSympy arg vm sf ≠ .error .typeError ∧
    operationToSympy arg vm sf ≠ .error .latexError := by
  have hok := operationToSympy_ok arg vm sf h
  obtain ⟨p, hp⟩ := (convOk_iff _).mp hok
  exact ⟨hok, by simp [hp], by simp [hp]⟩

/-- A supported tree exercising n-ary, binary and unary tags. -/
def demoArg : Arg :=
  mkOp .ADD [coshX, mkOp .DIV [.var ⟨"a", some 2⟩, .var xVar],
    mkOp .LOG10 [.var xVar]]

/-- Claim C6 witness. -/
theorem forward_conversion_total_on_supported_witness :
    WFb demoArg = true ∧
    (convOk (operationToSympy demoArg [] false) = true ∧
     operationToSympy demoArg [] false ≠ .error .typeError ∧
     operationToSympy demoArg [] false ≠ .error .latexError) :=
  ⟨rfl, forward_conversion_total_on_supported demoArg [] false rfl⟩

end LatexSympy
